import Mathlib

/-!
Verification of the Prospect-to-Lead agent workflow.

This file gives a shallow embedding, in Lean 4, of the agent execution loop of
the repository (src/agents/base_agent.py, src/langgraph_builder.py,
src/tools/api_tools.py) and proves the stated behavioural properties about it.

Modelling conventions:
* Python JSON values are the inductive `Json`.  A JSON number is kept as its
  source lexeme (the parser validates the JSON number grammar); no claim
  inspects numeric magnitudes, only whole-value equality at concrete points.
* Python dicts are association lists (`Dict`) with first-occurrence lookup and
  in-place replacement on update, matching dict insertion-order semantics.
* `json.loads` is modelled by `json_loads`: a recursive-descent parser for the
  JSON grammar (objects, arrays, strings with escapes, numbers, literals, and
  the NaN/Infinity constants Python accepts by default).  The fuel argument is
  decremented only on nested-value recursion and each such step consumes at
  least one input character, so `length + 1` fuel never runs out on real input.
  Escaped astral-plane surrogate pairs are translated escape-by-escape rather
  than recombined (Lean `Char` cannot hold lone surrogates); this affects only
  the decoded characters of such strings, never parse success or failure.
* Exceptions are `Except`: tool implementations are opaque functions that may
  fail with a message, and the LLM collaborator call is an `Except` value
  supplied to the runtime, since both are external capabilities.
-/

inductive Json where
  | null
  | bool (b : Bool)
  | num (lexeme : String)
  | str (s : String)
  | arr (elems : List Json)
  | obj (fields : List (String × Json))

abbrev Dict := List (String × Json)

/-- Python `d[k]` / `d.get(k)`: value at the first (only) occurrence of `k`. -/
def Dict.get : Dict → String → Option Json
  | [], _ => none
  | (k0, v0) :: rest, k => if k0 = k then some v0 else Dict.get rest k

/-- Python `d[k] = v`: replace the value in place if the key exists, else
append a new entry, preserving dict insertion order. -/
def Dict.set : Dict → String → Json → Dict
  | [], k, v => [(k, v)]
  | (k0, v0) :: rest, k, v =>
      if k0 = k then (k0, v) :: rest else (k0, v0) :: Dict.set rest k v

/-- The keys of a dict, in insertion order. -/
def Dict.keys (d : Dict) : List String := d.map Prod.fst

/-- Python `d.update(e)` (src/langgraph_builder.py line 15). -/
def dictUpdate (d e : Dict) : Dict := e.foldl (fun acc p => Dict.set acc p.1 p.2) d

def openBrace : Char := Char.ofNat 123

def closeBrace : Char := Char.ofNat 125

def quoteChar : Char := Char.ofNat 34

def backslashChar : Char := Char.ofNat 92

/-- JSON whitespace accepted by Python's decoder: space, tab, newline, CR. -/
def isJsonWs (c : Char) : Bool :=
  c = ' ' || c = Char.ofNat 9 || c = Char.ofNat 10 || c = Char.ofNat 13

def skipWs : List Char → List Char
  | [] => []
  | c :: cs => if isJsonWs c then skipWs cs else c :: cs

def hexVal (c : Char) : Option Nat :=
  if c.isDigit then some (c.toNat - 48)
  else if 97 ≤ c.toNat ∧ c.toNat ≤ 102 then some (c.toNat - 87)
  else if 65 ≤ c.toNat ∧ c.toNat ≤ 70 then some (c.toNat - 55)
  else none

/-- The single-character string escapes of JSON. -/
def escMap (c : Char) : Option Char :=
  if c = quoteChar then some quoteChar
  else if c = backslashChar then some backslashChar
  else if c = '/' then some '/'
  else if c = 'b' then some (Char.ofNat 8)
  else if c = 'f' then some (Char.ofNat 12)
  else if c = 'n' then some (Char.ofNat 10)
  else if c = 'r' then some (Char.ofNat 13)
  else if c = 't' then some (Char.ofNat 9)
  else none

/-- Body of a JSON string after the opening quote.  Rejects unescaped control
characters (Python strict mode) and invalid escapes. -/
def parseStringBody : List Char → Option (String × List Char)
  | [] => none
  | c :: cs =>
    if c = quoteChar then some ("", cs)
    else if c = backslashChar then
      match cs with
      | [] => none
      | e :: cs2 =>
        if e = 'u' then
          match cs2 with
          | a :: b :: c2 :: d :: cs3 =>
            match hexVal a, hexVal b, hexVal c2, hexVal d with
            | some ha, some hb, some hc, some hd =>
              match parseStringBody cs3 with
              | some (s, r) =>
                  some ((Char.ofNat (ha * 4096 + hb * 256 + hc * 16 + hd)).toString ++ s, r)
              | none => none
            | _, _, _, _ => none
          | _ => none
        else
          match escMap e with
          | some ec =>
            match parseStringBody cs2 with
            | some (s, r) => some (ec.toString ++ s, r)
            | none => none
          | none => none
    else if c.toNat < 32 then none
    else
      match parseStringBody cs with
      | some (s, r) => some (c.toString ++ s, r)
      | none => none

/-- Longest digit run at the head of the input. -/
def spanDigits : List Char → List Char × List Char
  | [] => ([], [])
  | c :: cs =>
    if c.isDigit then
      let (ds, r) := spanDigits cs
      (c :: ds, r)
    else ([], c :: cs)

/-- The optional fraction part `.digits` of a JSON number. -/
def parseFrac (cs : List Char) : Option (List Char × List Char) :=
  match cs with
  | c :: rest =>
    if c = '.' then
      match spanDigits rest with
      | ([], _) => none
      | (ds, r) => some (c :: ds, r)
    else some ([], cs)
  | [] => some ([], [])

/-- The optional exponent part `e[+-]digits` of a JSON number. -/
def parseExp (cs : List Char) : Option (List Char × List Char) :=
  match cs with
  | c :: rest =>
    if c = 'e' ∨ c = 'E' then
      let (sgn, rest2) :=
        match rest with
        | s :: r2 => if s = '+' ∨ s = '-' then ([s], r2) else (([] : List Char), rest)
        | [] => ([], rest)
      match spanDigits rest2 with
      | ([], _) => none
      | (ds, r) => some (c :: (sgn ++ ds), r)
    else some ([], cs)
  | [] => some ([], [])

/-- Lex a JSON number (`-?(0|[1-9][0-9]*)(.[0-9]+)?([eE][+-]?[0-9]+)?`),
returning its lexeme. -/
def parseNumber (cs : List Char) : Option (String × List Char) :=
  let (sgn, cs1) :=
    match cs with
    | c :: r => if c = '-' then ([c], r) else (([] : List Char), cs)
    | [] => ([], [])
  match cs1 with
  | c :: r =>
    let intPart : Option (List Char × List Char) :=
      if c = '0' then some ([c], r)
      else if c.isDigit then
        let (ds, r2) := spanDigits r
        some (c :: ds, r2)
      else none
    match intPart with
    | some (ip, r2) =>
      match parseFrac r2 with
      | some (fp, r3) =>
        match parseExp r3 with
        | some (ep, r4) => some (String.mk (sgn ++ ip ++ fp ++ ep), r4)
        | none => none
      | none => none
    | none => none
  | [] => none

/-- Match a literal character sequence at the head of the input. -/
def stripChars : List Char → List Char → Option (List Char)
  | [], cs => some cs
  | p :: ps, c :: cs => if c = p then stripChars ps cs else none
  | _ :: _, [] => none

mutual

/-- One JSON value, after optional leading whitespace.  Mirrors Python's
decoder, including the `NaN`/`Infinity`/`-Infinity` constants it accepts. -/
def parseValue : Nat → List Char → Option (Json × List Char)
  | 0, _ => none
  | Nat.succ fuel, cs =>
    match skipWs cs with
    | [] => none
    | c :: rest =>
      if c = openBrace then
        match skipWs rest with
        | [] => none
        | d :: rest2 =>
          if d = closeBrace then some (Json.obj [], rest2)
          else
            match parseMembers fuel [] (d :: rest2) with
            | some (fs, r) => some (Json.obj fs, r)
            | none => none
      else if c = '[' then
        match skipWs rest with
        | [] => none
        | d :: rest2 =>
          if d = ']' then some (Json.arr [], rest2)
          else
            match parseElements fuel [] (d :: rest2) with
            | some (xs, r) => some (Json.arr xs, r)
            | none => none
      else if c = quoteChar then
        match parseStringBody rest with
        | some (s, r) => some (Json.str s, r)
        | none => none
      else if c = 't' then
        match stripChars ['r', 'u', 'e'] rest with
        | some r => some (Json.bool true, r)
        | none => none
      else if c = 'f' then
        match stripChars ['a', 'l', 's', 'e'] rest with
        | some r => some (Json.bool false, r)
        | none => none
      else if c = 'n' then
        match stripChars ['u', 'l', 'l'] rest with
        | some r => some (Json.null, r)
        | none => none
      else if c = 'N' then
        match stripChars ['a', 'N'] rest with
        | some r => some (Json.num "NaN", r)
        | none => none
      else if c = 'I' then
        match stripChars ['n', 'f', 'i', 'n', 'i', 't', 'y'] rest with
        | some r => some (Json.num "Infinity", r)
        | none => none
      else if c = '-' then
        match rest with
        | 'I' :: r2 =>
          match stripChars ['n', 'f', 'i', 'n', 'i', 't', 'y'] r2 with
          | some r => some (Json.num "-Infinity", r)
          | none => none
        | _ =>
          match parseNumber (c :: rest) with
          | some (lex, r) => some (Json.num lex, r)
          | none => none
      else if c.isDigit then
        match parseNumber (c :: rest) with
        | some (lex, r) => some (Json.num lex, r)
        | none => none
      else none

/-- Members of an object, positioned at a key; accumulates with `Dict.set`, so
a repeated key keeps its first position with its last value, exactly as a
Python dict built by repeated assignment does. -/
def parseMembers : Nat → Dict → List Char → Option (Dict × List Char)
  | 0, _, _ => none
  | Nat.succ fuel, acc, cs =>
    match cs with
    | [] => none
    | c :: rest =>
      if c = quoteChar then
        match parseStringBody rest with
        | some (key, r1) =>
          match skipWs r1 with
          | ':' :: r2 =>
            match parseValue fuel r2 with
            | some (v, r3) =>
              match skipWs r3 with
              | [] => none
              | d :: r4 =>
                if d = ',' then parseMembers fuel (Dict.set acc key v) (skipWs r4)
                else if d = closeBrace then some (Dict.set acc key v, r4)
                else none
            | none => none
          | _ => none
        | none => none
      else none

/-- Elements of an array, positioned at a value. -/
def parseElements : Nat → List Json → List Char → Option (List Json × List Char)
  | 0, _, _ => none
  | Nat.succ fuel, acc, cs =>
    match parseValue fuel cs with
    | some (v, r1) =>
      match skipWs r1 with
      | [] => none
      | d :: r2 =>
        if d = ',' then parseElements fuel (acc ++ [v]) r2
        else if d = ']' then some (acc ++ [v], r2)
        else none
    | none => none

end

/-- Python `json.loads`: parse one JSON document and require only whitespace
after it. -/
def json_loads (s : String) : Option Json :=
  match parseValue (s.data.length + 1) s.data with
  | some (v, rest) => if skipWs rest = [] then some v else none
  | none => none

/-- Python `str.find`: index of the first occurrence, `-1` when absent. -/
def pyFind (cs : List Char) (c : Char) : Int :=
  match List.findIdx? (fun d => d = c) cs with
  | some i => (i : Int)
  | none => -1

/-- Python `str.rfind`: index of the last occurrence, `-1` when absent. -/
def pyRfind (cs : List Char) (c : Char) : Int :=
  match List.findIdx? (fun d => d = c) cs.reverse with
  | some i => (cs.length : Int) - 1 - (i : Int)
  | none => -1

/-- The substring `content[json_start:json_end]` that `_call_llm` hands to
`json.loads`, when the guard `json_start != -1 and json_end != -1` passes
(src/agents/base_agent.py lines 129-132).  `json_end` is `rfind + 1`, so it is
never `-1`; when the closing brace is absent the slice is empty. -/
def jsonCandidate (content : String) : Option String :=
  let cs := content.data
  let jsonStart := pyFind cs openBrace
  let jsonEnd := pyRfind cs closeBrace + 1
  if jsonStart ≠ -1 ∧ jsonEnd ≠ -1 then
    some (String.mk ((cs.drop jsonStart.toNat).take (jsonEnd.toNat - jsonStart.toNat)))
  else none

/-- The fixed payload `_call_llm` returns when no JSON can be decoded
(src/agents/base_agent.py line 138). -/
def invalidJsonPayload : Json :=
  Json.obj [("error", Json.str "Invalid JSON output from LLM.")]

/-- `ReActAgent._call_llm`, from the normalized content string onward: locate
the first brace and the last closing brace, parse that slice, and fall back to
the fixed error payload when the guard fails or parsing raises
(src/agents/base_agent.py lines 128-138). -/
def callLLMParse (content : String) : Json :=
  match jsonCandidate content with
  | some candidate =>
    match json_loads candidate with
    | some j => j
    | none => invalidJsonPayload
  | none => invalidJsonPayload

/-- `ReActAgent._call_llm` including the collaborator call itself: the
`self.llm.invoke(prompt)` on line 110 sits outside the `try`, so a failure of
the LLM call is not caught and propagates. -/
def reactCallLLM (llmResult : Except String String) : Except String Json :=
  match llmResult with
  | .error e => .error e
  | .ok content => .ok (callLLMParse content)

/-- A tool as the registry sees it: its docstring (or lack of one) and its
declared parameter signature, each parameter tagged with whether it has a
default (src/tools/api_tools.py). -/
structure ToolSpec where
  doc : Option String
  params : List (String × Bool)
deriving DecidableEq

/-- `AVAILABLE_TOOLS` (src/tools/api_tools.py lines 155-162): the six tools
with their docstrings and signatures.  Only `enrich_with_pdl` has a docstring;
only `write_to_google_sheet` has defaults (all four of its parameters). -/
def AVAILABLE_TOOLS : List (String × ToolSpec) :=
  [ ("search_apollo",
      ⟨none, [("api_key", false), ("icp", false)]⟩),
    ("search_clay",
      ⟨none, [("api_key", false), ("table_webhook", false), ("icp", false)]⟩),
    ("enrich_with_pdl",
      ⟨some "Enriches a lead's data using the PeopleDataLabs API via direct HTTP requests.",
       [("api_key", false), ("email", false)]⟩),
    ("send_email_sendgrid",
      ⟨none, [("api_key", false), ("to_email", false), ("from_email", false),
              ("subject", false), ("body", false)]⟩),
    ("track_apollo_campaign",
      ⟨none, [("api_key", false), ("campaign_id", false)]⟩),
    ("write_to_google_sheet",
      ⟨none, [("sheet_id", true), ("sheet_name", true), ("data", true),
              ("credentials_path", true)]⟩) ]

/-- `AVAILABLE_TOOLS.get(name)` / `name in AVAILABLE_TOOLS`. -/
def lookupTool (nm : String) : Option ToolSpec :=
  match AVAILABLE_TOOLS.find? (fun p => p.1 = nm) with
  | some p => some p.2
  | none => none

/-- One entry of an agent's `tools_config`: a tool name plus the static
configuration mapping resolved at workflow load time. -/
structure ToolBinding where
  name : String
  config : Dict

/-- A tool's runtime behaviour: invoked with merged keyword parameters, it
either returns a value or raises an exception carrying a message.  The
concrete tools do network calls, so their behaviour is a parameter of the
model. -/
abbrev ToolImpl := String → Dict → Except String Json

/-- What one dispatch produced: the step output, plus whether the tool
function was actually invoked. -/
structure StepResult where
  output : Json
  toolInvoked : Bool

/-- Python exceptions that `ReActAgent.run` does not catch. -/
inductive RunExc where
  | llmFailure (msg : String)
  | typeError
  | attributeError

/-- Python truthiness-based fallback `d or default` for the merge guard
`params.get(k) in (None, "")`: the configured value is injected when the key
is absent, `None`, or the empty string (src/agents/base_agent.py lines 66-69). -/
def blankForMerge : Option Json → Bool
  | none => true
  | some Json.null => true
  | some (Json.str s) => s = ""
  | some _ => false

/-- The config-injection loop of `ReActAgent.run` (lines 66-69): for each
configured key, write the configured value into `params` unless the LLM
already supplied a non-empty, non-null value for it. -/
def mergeConfig (params config : Dict) : Dict :=
  config.foldl
    (fun ps kv => if blankForMerge (Dict.get ps kv.1) then Dict.set ps kv.1 kv.2 else ps)
    params

/-- The required-parameter scan of `ReActAgent.run` (lines 72-76): signature
parameters that have no default and are absent from the merged parameters. -/
def missingRequired (sig : List (String × Bool)) (params : Dict) : List String :=
  (sig.filter (fun p => !p.2 && (Dict.get params p.1).isNone)).map Prod.fst

/-- Python `repr` of a list of strings, as an f-string renders
`missing_required` (line 78): single-quoted, comma-and-space separated. -/
def pyListRepr (xs : List String) : String :=
  "[" ++ String.intercalate ", " (xs.map (fun s => "'" ++ s ++ "'")) ++ "]"

/-- Shorthand for the `{"error": msg}` payloads `ReActAgent.run` builds. -/
def errObj (msg : String) : Json := Json.obj [("error", Json.str msg)]

/-- Python `str()` of the scalar JSON values a `tool_name` slot can hold,
as an f-string renders it.  (For a float the source lexeme stands in for
Python's float formatting; no claim exercises a numeric tool name.) -/
def pyStrName : Option Json → String
  | none => "None"
  | some Json.null => "None"
  | some (Json.bool true) => "True"
  | some (Json.bool false) => "False"
  | some (Json.num lex) => lex
  | some (Json.str s) => s
  | some (Json.arr _) => ""
  | some (Json.obj _) => ""

/-- Lines 63-86 of src/agents/base_agent.py once the tool is known and bound:
merge the binding's config into the LLM-supplied parameters, gate on required
signature parameters, then invoke the tool with every exception caught. -/
def execBoundTool (impl : ToolImpl) (nm : String) (spec : ToolSpec)
    (binding : ToolBinding) (p0 : Dict) : StepResult :=
  let params := mergeConfig p0 binding.config
  let missing := missingRequired spec.params params
  if missing = [] then
    match impl nm params with
    | .ok observation => ⟨observation, true⟩
    | .error e => ⟨errObj ("Tool '" ++ nm ++ "' raised exception: " ++ e), true⟩
  else
    ⟨errObj ("Missing required parameters for tool '" ++ nm ++ "': "
      ++ pyListRepr missing), false⟩

/-- The `"action"` branch of `ReActAgent.run` (lines 53-90), given the value
under the `action` key.  `action.get` on a non-mapping raises
(`AttributeError`); a non-hashable `tool_name` raises at the membership test
(`TypeError`); a non-mapping `parameters` value raises once the merge loop or
the call reaches it (`TypeError`) — the model raises it at the merge, the one
place the claims exercise.  Everything else is the source's chain: registry
membership first, then the per-agent binding lookup, then `execBoundTool`. -/
def handleAction (cfg : List ToolBinding) (impl : ToolImpl) (av : Json) :
    Except RunExc StepResult :=
  match av with
  | Json.obj a =>
    match Dict.get a "tool_name" with
    | some (Json.arr _) => .error .typeError
    | some (Json.obj _) => .error .typeError
    | some (Json.str nm) =>
      match lookupTool nm with
      | some spec =>
        match cfg.find? (fun t => t.name = nm) with
        | some binding =>
          match Dict.get a "parameters" with
          | some (Json.obj p0) => .ok (execBoundTool impl nm spec binding p0)
          | none => .ok (execBoundTool impl nm spec binding [])
          | some _ => .error .typeError
        | none =>
          .ok ⟨errObj ("Tool configuration for '" ++ nm
                ++ "' not found for this agent."), false⟩
      | none => .ok ⟨errObj ("Tool '" ++ nm ++ "' not found."), false⟩
    | other =>
      .ok ⟨errObj ("Tool '" ++ pyStrName other ++ "' not found."), false⟩
  | _ => .error .attributeError

/-- Key membership as Python's `in` sees the parsed response (always a dict
when it reaches the dispatch; a key bound to `None` still counts as present). -/
def Json.hasKey : Json → String → Bool
  | Json.obj fs, k => (Dict.get fs k).isSome
  | _, _ => false

/-- `j[k]` for a present key, `null` otherwise. -/
def Json.getD : Json → String → Json
  | Json.obj fs, k =>
    (match Dict.get fs k with
     | some v => v
     | none => Json.null)
  | _, _ => Json.null

/-- The decision dispatch of `ReActAgent.run` (lines 53-100): the `action`
key is tested first, then `final_answer`, else the fixed format error. -/
def runDispatch (cfg : List ToolBinding) (impl : ToolImpl) (resp : Json) :
    Except RunExc StepResult :=
  if resp.hasKey "action" then handleAction cfg impl (resp.getD "action")
  else if resp.hasKey "final_answer" then .ok ⟨resp.getD "final_answer", false⟩
  else .ok ⟨errObj "Invalid LLM response format.", false⟩

/-- `ReActAgent.run` end to end: obtain the parsed LLM response (an uncaught
collaborator failure propagates), dispatch it, and wrap the step output as
`{agent_id: {"output": output}}` (line 103). -/
def runAgent (agentId : String) (cfg : List ToolBinding) (impl : ToolImpl)
    (llmResult : Except String String) : Except RunExc Dict :=
  match reactCallLLM llmResult with
  | .error e => .error (.llmFailure e)
  | .ok resp =>
    match runDispatch cfg impl resp with
    | .ok r => .ok [(agentId, Json.obj [("output", r.output)])]
    | .error e => .error e

/-- `update_state` (src/langgraph_builder.py lines 14-16): merge one step's
returned fragment into the shared `steps` mapping. -/
def update_state (steps new_step_output : Dict) : Dict :=
  dictUpdate steps new_step_output

/-- The sequencer's effect on the `steps` mapping over a whole run: starting
from the seed, each step's `{step_id: {"output": output}}` fragment is merged
in list order (src/langgraph_builder.py lines 98, 113-126). -/
def runWorkflow (seed : Dict) (steps : List (String × Json)) : Dict :=
  steps.foldl
    (fun st p => update_state st [(p.1, Json.obj [("output", p.2)])]) seed

/-- The seed state `main` supplies (src/langgraph_builder.py lines 114-123). -/
def initialSteps : Dict :=
  [("initial_icp", Json.obj
      [("industry", Json.str "Software"),
       ("location", Json.str "USA"),
       ("employee_range", Json.str "51-200"),
       ("signals", Json.arr [Json.str "hiring for sales roles"])])]

/-- ASCII whitespace stripped by Python `str.strip()`: tab through CR, and
space.  (Exotic Unicode whitespace, absent from every docstring in the
repository, is not modelled.) -/
def isStripWs (c : Char) : Bool := (9 ≤ c.toNat ∧ c.toNat ≤ 13) ∨ c = ' '

def dropWsLeft : List Char → List Char
  | [] => []
  | c :: cs => if isStripWs c then dropWsLeft cs else c :: cs

/-- Python `str.strip()`. -/
def pyStrip (s : String) : String :=
  String.mk ((dropWsLeft (dropWsLeft s.data.reverse).reverse))

/-- Python `(doc or 'No documentation provided').strip()` from the
`tool_descriptions` build (src/agents/base_agent.py line 18): an absent or
empty docstring falls back to the placeholder, then whitespace is stripped. -/
def describeDoc (doc : Option String) : String :=
  pyStrip (match doc with
           | some s => if s = "" then "No documentation provided" else s
           | none => "No documentation provided")

/-- One line of `tool_descriptions` for a bound tool found in the registry. -/
def descLine (nm : String) (spec : ToolSpec) : String :=
  "- " ++ nm ++ ": " ++ describeDoc spec.doc

/-- `tool_descriptions` (src/agents/base_agent.py lines 16-22): one line per
bound tool that exists in the registry. -/
def toolDescriptions (cfg : List ToolBinding) : String :=
  String.intercalate "\n"
    ((cfg.filter (fun t => (lookupTool t.name).isSome)).map
      (fun t =>
        match lookupTool t.name with
        | some spec => descLine t.name spec
        | none => ""))

/-- The message inside an `{"error": msg}` payload, used to separate distinct
error payloads. -/
def errMsgOf : Json → String
  | Json.obj (("error", Json.str s) :: _) => s
  | _ => ""

/-- A tool implementation that always returns normally. -/
def okNullImpl : ToolImpl := fun _ _ => Except.ok Json.null

/-- A tool implementation that always raises, with message `timeout`. -/
def raisingImpl : ToolImpl := fun _ _ => Except.error "timeout"

/-- A raw LLM response requesting `enrich_with_pdl` with empty parameters. -/
def pdlCallContent : String :=
  "\x7b\"action\": \x7b\"tool_name\": \"enrich_with_pdl\", \"parameters\": \x7b\x7d\x7d\x7d"

/-- A binding for `enrich_with_pdl` whose config supplies both required
parameters. -/
def pdlBindingFull : ToolBinding :=
  ⟨"enrich_with_pdl", [("api_key", Json.str "K"), ("email", Json.str "jane@example.com")]⟩

/-- A binding for `enrich_with_pdl` whose config supplies `api_key` but not
`email`. -/
def pdlBindingNoEmail : ToolBinding :=
  ⟨"enrich_with_pdl", [("api_key", Json.str "K")]⟩

/-- The spec's final-answer scenario: commentary followed by a JSON object
holding `thought` and `final_answer`. -/
def sureContent : String :=
  "Sure! \x7b\"thought\":\"ok\",\"final_answer\":\x7b\"x\":1\x7d\x7d"

/-- A raw LLM response whose JSON object carries BOTH an `action` and a
`final_answer` key. -/
def bothKeysContent : String :=
  "\x7b\"action\": \x7b\"tool_name\": \"nope\"\x7d, \"final_answer\": \x7b\"x\": 1\x7d\x7d"

theorem Dict.get_set_same (d : Dict) (k : String) (v : Json) :
    Dict.get (Dict.set d k v) k = some v := by
  induction d with
  | nil => simp [Dict.set, Dict.get]
  | cons p rest ih =>
    obtain ⟨k0, v0⟩ := p
    by_cases h : k0 = k
    · simp [Dict.set, Dict.get, h]
    · simp [Dict.set, Dict.get, h, ih]

theorem Dict.get_set_ne (d : Dict) (k k' : String) (v : Json) (h : k ≠ k') :
    Dict.get (Dict.set d k v) k' = Dict.get d k' := by
  induction d with
  | nil => simp [Dict.set, Dict.get, h]
  | cons p rest ih =>
    obtain ⟨k0, v0⟩ := p
    by_cases h0 : k0 = k
    · subst h0
      simp [Dict.set, Dict.get, h]
    · simp [Dict.set, Dict.get, h0, ih]

theorem Dict.mem_keys_iff_isSome (d : Dict) (k : String) :
    k ∈ d.keys ↔ (Dict.get d k).isSome := by
  induction d with
  | nil => simp [Dict.keys, Dict.get]
  | cons p rest ih =>
    obtain ⟨k0, v0⟩ := p
    by_cases h : k0 = k
    · simp [Dict.keys, Dict.get, h]
    · simpa [Dict.keys, Dict.get, h, Ne.symm h] using ih

theorem Dict.get_eq_none_of_not_mem (d : Dict) (k : String) (h : k ∉ d.keys) :
    Dict.get d k = none := by
  have := (Dict.mem_keys_iff_isSome d k).not.mp h
  cases hg : Dict.get d k with
  | none => rfl
  | some v => rw [hg] at this; simp at this

theorem Dict.set_fresh (d : Dict) (k : String) (v : Json) (h : k ∉ d.keys) :
    Dict.set d k v = d ++ [(k, v)] := by
  induction d with
  | nil => simp [Dict.set]
  | cons p rest ih =>
    obtain ⟨k0, v0⟩ := p
    simp only [Dict.keys, List.map_cons, List.mem_cons] at h
    push_neg at h
    simp [Dict.set, Ne.symm h.1, ih (by simpa [Dict.keys] using h.2)]

theorem Dict.get_append_left (d1 d2 : Dict) (k : String) (v : Json)
    (h : Dict.get d1 k = some v) : Dict.get (d1 ++ d2) k = some v := by
  induction d1 with
  | nil => simp [Dict.get] at h
  | cons p rest ih =>
    obtain ⟨k0, v0⟩ := p
    by_cases h0 : k0 = k
    · simp [Dict.get, h0] at h ⊢
      exact h
    · simp [Dict.get, h0] at h ⊢
      exact ih h

theorem Dict.get_append_right (d1 d2 : Dict) (k : String)
    (h : Dict.get d1 k = none) : Dict.get (d1 ++ d2) k = Dict.get d2 k := by
  induction d1 with
  | nil => simp [Dict.get]
  | cons p rest ih =>
    obtain ⟨k0, v0⟩ := p
    by_cases h0 : k0 = k
    · simp [Dict.get, h0] at h
    · simp [Dict.get, h0] at h ⊢
      exact ih h

theorem mergeConfig_cons (p : Dict) (c : String × Json) (rest : Dict) :
    mergeConfig p (c :: rest) =
      mergeConfig (if blankForMerge (Dict.get p c.1) then Dict.set p c.1 c.2 else p) rest := by
  simp [mergeConfig, List.foldl]

theorem mergeConfig_get_of_not_mem (p config : Dict) (k : String)
    (h : k ∉ config.keys) :
    Dict.get (mergeConfig p config) k = Dict.get p k := by
  induction config generalizing p with
  | nil => simp [mergeConfig]
  | cons c rest ih =>
    simp only [Dict.keys, List.map_cons, List.mem_cons] at h
    push_neg at h
    rw [mergeConfig_cons]
    by_cases hb : blankForMerge (Dict.get p c.1)
    · rw [if_pos hb, ih _ (by simpa [Dict.keys] using h.2),
        Dict.get_set_ne _ _ _ _ (Ne.symm h.1)]
    · rw [if_neg hb, ih _ (by simpa [Dict.keys] using h.2)]

theorem mergeConfig_get_blank (params config : Dict) (k : String) (v : Json)
    (hnd : (config.map Prod.fst).Nodup)
    (hv : Dict.get config k = some v)
    (hb : blankForMerge (Dict.get params k) = true) :
    Dict.get (mergeConfig params config) k = some v := by
  induction config generalizing params with
  | nil => simp [Dict.get] at hv
  | cons c rest ih =>
    obtain ⟨k0, v0⟩ := c
    simp only [List.map_cons, List.nodup_cons] at hnd
    rw [mergeConfig_cons]
    by_cases h0 : k0 = k
    · subst h0
      simp only [Dict.get, if_pos] at hv
      rw [if_pos (by simpa using hb)]
      rw [mergeConfig_get_of_not_mem _ _ _ (by simpa [Dict.keys] using hnd.1)]
      rw [Dict.get_set_same]
      simpa using hv
    · simp only [Dict.get, if_neg h0] at hv
      by_cases hbl : blankForMerge (Dict.get params k0)
      · rw [if_pos hbl]
        exact ih _ hnd.2 hv (by rwa [Dict.get_set_ne _ _ _ _ h0])
      · rw [if_neg hbl]
        exact ih _ hnd.2 hv hb

theorem mergeConfig_get_supplied (params config : Dict) (k : String) (x : Json)
    (hx : Dict.get params k = some x)
    (hnb : blankForMerge (some x) = false) :
    Dict.get (mergeConfig params config) k = some x := by
  induction config generalizing params with
  | nil => simpa [mergeConfig]
  | cons c rest ih =>
    obtain ⟨k0, v0⟩ := c
    rw [mergeConfig_cons]
    by_cases h0 : k0 = k
    · subst h0
      rw [if_neg (by show ¬(blankForMerge (Dict.get params k0) = true); rw [hx, hnb]; simp)]
      exact ih _ hx
    · by_cases hbl : blankForMerge (Dict.get params k0)
      · rw [if_pos hbl]
        exact ih _ (by rwa [Dict.get_set_ne _ _ _ _ h0])
      · rw [if_neg hbl]
        exact ih _ hx

theorem mem_missingRequired (sig : List (String × Bool)) (params : Dict) (p : String) :
    p ∈ missingRequired sig params ↔
      ((p, false) ∈ sig ∧ Dict.get params p = none) := by
  simp only [missingRequired, List.mem_map, List.mem_filter]
  constructor
  · rintro ⟨⟨q, hd⟩, ⟨hq, hcond⟩, rfl⟩
    simp only [Bool.and_eq_true, Bool.not_eq_eq_eq_not, Bool.not_true,
      Option.isNone_iff_eq_none] at hcond
    obtain ⟨hd0, hget⟩ := hcond
    subst hd0
    exact ⟨hq, hget⟩
  · rintro ⟨hmem, hget⟩
    exact ⟨(p, false), ⟨hmem, by simp [hget]⟩, rfl⟩

theorem runWorkflow_append_form (seed : Dict) (steps : List (String × Json))
    (hnd : (steps.map Prod.fst).Nodup)
    (hdisj : ∀ s ∈ steps.map Prod.fst, s ∉ seed.keys) :
    runWorkflow seed steps =
      seed ++ steps.map (fun p => (p.1, Json.obj [("output", p.2)])) := by
  induction steps generalizing seed with
  | nil => simp [runWorkflow]
  | cons q rest ih =>
    obtain ⟨sid, out⟩ := q
    simp only [List.map_cons, List.nodup_cons] at hnd
    have hfresh : sid ∉ seed.keys := hdisj sid (by simp)
    have hstep : runWorkflow seed ((sid, out) :: rest) =
        runWorkflow (Dict.set seed sid (Json.obj [("output", out)])) rest := by
      simp [runWorkflow, update_state, dictUpdate]
    rw [hstep, Dict.set_fresh _ _ _ hfresh]
    rw [ih _ hnd.2]
    · simp
    · intro s hs
      simp only [Dict.keys, List.map_append, List.map_cons, List.map_nil,
        List.mem_append, List.mem_cons, List.not_mem_nil]
      push_neg
      refine ⟨hdisj s (by simp [hs]), ?_, by simp⟩
      intro heq
      exact hnd.1 (heq ▸ hs)

theorem get_wrapped_steps (steps : List (String × Json)) (p : String × Json)
    (hnd : (steps.map Prod.fst).Nodup) (hp : p ∈ steps) :
    Dict.get (steps.map (fun q => (q.1, Json.obj [("output", q.2)]))) p.1 =
      some (Json.obj [("output", p.2)]) := by
  induction steps with
  | nil => simp at hp
  | cons q rest ih =>
    simp only [List.map_cons, List.nodup_cons] at hnd
    rcases List.mem_cons.mp hp with rfl | hmem
    · simp [Dict.get]
    · have hne : q.1 ≠ p.1 := by
        intro heq
        exact hnd.1 (heq ▸ List.mem_map_of_mem Prod.fst hmem)
      simp only [List.map_cons, Dict.get, if_neg hne]
      exact ih hnd.2 hmem

/-- Claim C3: for every tool-call parameter key `k` with a bound config value
`v`: if the LLM-supplied parameters omit `k` or map it to the empty string or
null, the merged parameter for `k` equals `v`; if the LLM supplies a
non-empty, non-null value `x` for `k`, the merged parameter equals `x`
regardless of the bound config. -/
theorem claim3_config_precedence (params config : Dict) (k : String) (v : Json)
    (hnd : (config.map Prod.fst).Nodup)
    (hv : Dict.get config k = some v) :
    ((Dict.get params k = none ∨ Dict.get params k = some Json.null ∨
        Dict.get params k = some (Json.str "")) →
      Dict.get (mergeConfig params config) k = some v)
    ∧ (∀ x, Dict.get params k = some x → x ≠ Json.null → x ≠ Json.str "" →
      Dict.get (mergeConfig params config) k = some x) := by
  constructor
  · intro hblank
    apply mergeConfig_get_blank params config k v hnd hv
    rcases hblank with h | h | h <;> simp [h, blankForMerge]
  · intro x hx hnn hne
    apply mergeConfig_get_supplied params config k x hx
    cases x with
    | null => exact absurd rfl hnn
    | str s =>
      have hs : s ≠ "" := fun h => hne (by rw [h])
      simp [blankForMerge, hs]
    | bool b => rfl
    | num lex => rfl
    | arr xs => rfl
    | obj fs => rfl

/-- Witness for C3 at a concrete input: a blank LLM value is overridden by
the bound config value. -/
theorem claim3_witness :
    Dict.get (mergeConfig [("email", Json.str "")]
      [("email", Json.str "cfg@example.com")]) "email" =
      some (Json.str "cfg@example.com") :=
  (claim3_config_precedence [("email", Json.str "")]
    [("email", Json.str "cfg@example.com")] "email" (Json.str "cfg@example.com")
    (by simp) rfl).1 (Or.inr (Or.inr rfl))

/-- Claim C7: a failure of the language-model collaborator call itself is not
caught by the runtime: `_call_llm`'s `invoke` sits outside its `try`, so the
exception propagates out of `run` and the step produces no output mapping,
unlike every other failure category. -/
theorem claim7_llm_failure_propagates (agentId msg : String)
    (cfg : List ToolBinding) (impl : ToolImpl) :
    reactCallLLM (.error msg) = .error msg ∧
    runAgent agentId cfg impl (.error msg) = .error (.llmFailure msg) :=
  ⟨rfl, rfl⟩

/-- Claim C9: for every tool in the registry, the description embedded in the
prompt is never empty, and when the tool function has no documentation string
the fixed placeholder `No documentation provided` is used. -/
theorem claim9_tool_descriptions_nonempty :
    ∀ nm spec, (nm, spec) ∈ AVAILABLE_TOOLS →
      describeDoc spec.doc ≠ "" ∧
      (spec.doc = none → describeDoc spec.doc = "No documentation provided") := by
  intro nm spec h
  fin_cases h <;> exact ⟨by decide, by decide⟩

/-- Witness for C9 at a concrete registry entry: `search_apollo` has no
docstring and its description is the non-empty placeholder. -/
theorem claim9_witness :
    describeDoc (none : Option String) ≠ "" ∧
    ((none : Option String) = none →
      describeDoc (none : Option String) = "No documentation provided") :=
  claim9_tool_descriptions_nonempty "search_apollo"
    ⟨none, [("api_key", false), ("icp", false)]⟩
    (by decide)

/-- Claim C10: a parsed response object carrying both an `action` and a
`final_answer` key is dispatched as a tool call: the step result is exactly
what the action branch produces, and the `final_answer` value plays no part,
because `run` tests `action` before `final_answer`. -/
theorem claim10_action_over_final_answer (cfg : List ToolBinding) (impl : ToolImpl)
    (fields : Dict) (av fa : Json)
    (ha : Dict.get fields "action" = some av)
    (_hfa : Dict.get fields "final_answer" = some fa) :
    runDispatch cfg impl (Json.obj fields) = handleAction cfg impl av := by
  simp [runDispatch, Json.hasKey, Json.getD, ha]

/-- Witness for C10 at a concrete response holding both keys. -/
theorem claim10_witness :
    runDispatch [] okNullImpl
      (Json.obj [("action", Json.obj [("tool_name", Json.str "nope")]),
                 ("final_answer", Json.obj [("x", Json.num "1")])]) =
    handleAction [] okNullImpl (Json.obj [("tool_name", Json.str "nope")]) :=
  claim10_action_over_final_answer [] okNullImpl
    [("action", Json.obj [("tool_name", Json.str "nope")]),
     ("final_answer", Json.obj [("x", Json.num "1")])]
    (Json.obj [("tool_name", Json.str "nope")]) (Json.obj [("x", Json.num "1")])
    rfl rfl

/-- Claim C2: when a bound tool's invocation raises, `run` does not let the
exception past the runtime boundary: the recorded step output is the mapping
whose `error` value is `Tool '<name>' raised exception: <message>`. -/
theorem claim2_tool_exception_contained
    (agentId content nm msg : String) (cfg : List ToolBinding) (impl : ToolImpl)
    (fields a p0 : Dict) (spec : ToolSpec) (binding : ToolBinding)
    (hparse : callLLMParse content = Json.obj fields)
    (haction : Dict.get fields "action" = some (Json.obj a))
    (hname : Dict.get a "tool_name" = some (Json.str nm))
    (hknown : lookupTool nm = some spec)
    (hbound : cfg.find? (fun t => t.name = nm) = some binding)
    (hparams : Dict.get a "parameters" = some (Json.obj p0))
    (hcomplete : missingRequired spec.params (mergeConfig p0 binding.config) = [])
    (hraise : impl nm (mergeConfig p0 binding.config) = .error msg) :
    runAgent agentId cfg impl (.ok content) =
      .ok [(agentId, Json.obj [("output",
        errObj ("Tool '" ++ nm ++ "' raised exception: " ++ msg))])] := by
  simp [runAgent, reactCallLLM, hparse, runDispatch, Json.hasKey, Json.getD, haction,
    handleAction, hname, hknown, hbound, hparams, execBoundTool, hcomplete, hraise]

/-- Witness for C2: `enrich_with_pdl`, fully configured, whose implementation
raises `timeout`; the step records the wrapped error. -/
theorem claim2_witness :
    runAgent "enrichment" [pdlBindingFull] raisingImpl (.ok pdlCallContent) =
      .ok [("enrichment", Json.obj [("output",
        errObj "Tool 'enrich_with_pdl' raised exception: timeout")])] :=
  claim2_tool_exception_contained "enrichment" pdlCallContent "enrich_with_pdl" "timeout"
    [pdlBindingFull] raisingImpl
    [("action", Json.obj [("tool_name", Json.str "enrich_with_pdl"),
                          ("parameters", Json.obj [])])]
    [("tool_name", Json.str "enrich_with_pdl"), ("parameters", Json.obj [])]
    []
    ⟨some "Enriches a lead's data using the PeopleDataLabs API via direct HTTP requests.",
     [("api_key", false), ("email", false)]⟩
    pdlBindingFull
    rfl rfl rfl rfl rfl rfl rfl rfl

/-- Claim C4: when some signature parameter of the requested tool has no
default and is absent from the merged parameters, the tool function is never
invoked, and the step output is the `Missing required parameters` error whose
bracketed list contains exactly the no-default absent parameters. -/
theorem claim4_missing_required_gate
    (cfg : List ToolBinding) (impl : ToolImpl) (fields a p0 : Dict)
    (nm p : String) (spec : ToolSpec) (binding : ToolBinding)
    (haction : Dict.get fields "action" = some (Json.obj a))
    (hname : Dict.get a "tool_name" = some (Json.str nm))
    (hknown : lookupTool nm = some spec)
    (hbound : cfg.find? (fun t => t.name = nm) = some binding)
    (hparams : Dict.get a "parameters" = some (Json.obj p0))
    (hmiss : (p, false) ∈ spec.params ∧
      Dict.get (mergeConfig p0 binding.config) p = none) :
    runDispatch cfg impl (Json.obj fields) =
      .ok ⟨errObj ("Missing required parameters for tool '" ++ nm ++ "': "
        ++ pyListRepr (missingRequired spec.params (mergeConfig p0 binding.config))), false⟩
    ∧ ∀ q, q ∈ missingRequired spec.params (mergeConfig p0 binding.config) ↔
        ((q, false) ∈ spec.params ∧ Dict.get (mergeConfig p0 binding.config) q = none) := by
  have hne : missingRequired spec.params (mergeConfig p0 binding.config) ≠ [] := by
    intro h
    have hm := (mem_missingRequired spec.params (mergeConfig p0 binding.config) p).mpr hmiss
    rw [h] at hm
    simp at hm
  constructor
  · simp [runDispatch, Json.hasKey, Json.getD, haction, handleAction, hname, hknown,
      hbound, hparams, execBoundTool, hne]
  · intro q
    exact mem_missingRequired spec.params (mergeConfig p0 binding.config) q

/-- Witness for C4, the spec's scenario: `enrich_with_pdl` requires `email`,
the LLM supplies empty parameters, the config has no `email`; the output
lists `email` as missing and the tool is not called. -/
theorem claim4_witness :
    runDispatch [pdlBindingNoEmail] okNullImpl
      (Json.obj [("action", Json.obj [("tool_name", Json.str "enrich_with_pdl"),
                                      ("parameters", Json.obj [])])]) =
      .ok ⟨errObj "Missing required parameters for tool 'enrich_with_pdl': ['email']",
           false⟩ :=
  (claim4_missing_required_gate [pdlBindingNoEmail] okNullImpl
    [("action", Json.obj [("tool_name", Json.str "enrich_with_pdl"),
                          ("parameters", Json.obj [])])]
    [("tool_name", Json.str "enrich_with_pdl"), ("parameters", Json.obj [])]
    [] "enrich_with_pdl" "email"
    ⟨some "Enriches a lead's data using the PeopleDataLabs API via direct HTTP requests.",
     [("api_key", false), ("email", false)]⟩
    pdlBindingNoEmail
    rfl rfl rfl rfl rfl ⟨by decide, rfl⟩).1

/-- Claim C5: an unknown tool name yields `Tool '<name>' not found.` whatever
the agent's bindings say (the registry membership test runs first), and a
registered tool without a binding for this agent yields
`Tool configuration for '<name>' not found for this agent.`. -/
theorem claim5_unknown_then_unbound
    (cfg : List ToolBinding) (impl : ToolImpl) (fields a : Dict) (nm : String)
    (haction : Dict.get fields "action" = some (Json.obj a))
    (hname : Dict.get a "tool_name" = some (Json.str nm)) :
    (lookupTool nm = none →
      runDispatch cfg impl (Json.obj fields) =
        .ok ⟨errObj ("Tool '" ++ nm ++ "' not found."), false⟩)
    ∧ (∀ spec, lookupTool nm = some spec →
        cfg.find? (fun t => t.name = nm) = none →
        runDispatch cfg impl (Json.obj fields) =
          .ok ⟨errObj ("Tool configuration for '" ++ nm
                ++ "' not found for this agent."), false⟩) := by
  constructor
  · intro hnf
    simp [runDispatch, Json.hasKey, Json.getD, haction, handleAction, hname, hnf]
  · intro spec hk hnb
    simp [runDispatch, Json.hasKey, Json.getD, haction, handleAction, hname, hk, hnb]

/-- Witness for C5: `send_email` is bound for the agent but absent from the
registry, and the registry check fires first. -/
theorem claim5_witness :
    runDispatch [⟨"send_email", []⟩] okNullImpl
      (Json.obj [("action", Json.obj [("tool_name", Json.str "send_email")])]) =
      .ok ⟨errObj "Tool 'send_email' not found.", false⟩ :=
  (claim5_unknown_then_unbound [⟨"send_email", []⟩] okNullImpl
    [("action", Json.obj [("tool_name", Json.str "send_email")])]
    [("tool_name", Json.str "send_email")] "send_email"
    rfl rfl).1 rfl

/-- Counterexample to C1 as stated: on a response with no locatable JSON the
step's recorded output is `{"error": "Invalid LLM response format."}` — the
fixed payload `{"error": "Invalid JSON output from LLM."}` is only
`_call_llm`'s return value, which the dispatch then replaces, so the recorded
output differs from the payload the claim names. -/
theorem claim1_counterexample :
    runAgent "agent_1" [] okNullImpl (.ok "no json here") =
      .ok [("agent_1", Json.obj [("output", errObj "Invalid LLM response format.")])]
    ∧ errObj "Invalid LLM response format." ≠ invalidJsonPayload :=
  ⟨rfl, fun h => absurd (congrArg errMsgOf h) (by decide)⟩

/-- Claim C1 as amended: for every raw LLM response in which no parsable JSON
object can be located, `_call_llm` returns the fixed payload
`{"error": "Invalid JSON output from LLM."}` without retrying, and the step's
recorded output is then the dispatch's `{"error": "Invalid LLM response
format."}` mapping. -/
theorem claim1_no_parsable_json (content : String)
    (h : ∀ s, jsonCandidate content = some s → json_loads s = none) :
    callLLMParse content = invalidJsonPayload
    ∧ ∀ agentId cfg impl, runAgent agentId cfg impl (.ok content) =
        .ok [(agentId, Json.obj [("output", errObj "Invalid LLM response format.")])] := by
  have hp : callLLMParse content = invalidJsonPayload := by
    cases hc : jsonCandidate content with
    | none => simp [callLLMParse, hc]
    | some s => simp [callLLMParse, hc, h s hc]
  refine ⟨hp, ?_⟩
  intro agentId cfg impl
  have hc : reactCallLLM (Except.ok content) = .ok invalidJsonPayload := by
    simp [reactCallLLM, hp]
  simp [runAgent, hc, runDispatch, Json.hasKey, Json.getD, invalidJsonPayload,
    Dict.get, errObj]

/-- Witness for amended C1 at a concrete unparsable response. -/
theorem claim1_witness :
    callLLMParse "no json here" = invalidJsonPayload ∧
    runAgent "agent_1" [] okNullImpl (.ok "no json here") =
      .ok [("agent_1", Json.obj [("output", errObj "Invalid LLM response format.")])] :=
  have h : ∀ s, jsonCandidate "no json here" = some s → json_loads s = none := by
    intro s hs
    rw [show jsonCandidate "no json here" = none from rfl] at hs
    cases hs
  ⟨(claim1_no_parsable_json "no json here" h).1,
   (claim1_no_parsable_json "no json here" h).2 "agent_1" [] okNullImpl⟩

/-- Counterexample to C6 as stated: `main` seeds the state with the
`initial_icp` record, so a run of one step with a fresh identifier ends with
two keys, not one. -/
theorem claim6_counterexample :
    ([("lead_generation", Json.obj [])] : List (String × Json)).length = 1
    ∧ (([("lead_generation", Json.obj [])] : List (String × Json)).map Prod.fst).Nodup
    ∧ (runWorkflow initialSteps [("lead_generation", Json.obj [])]).length = 2
    ∧ (2 : Nat) ≠ 1 :=
  ⟨rfl, by decide, rfl, by decide⟩

/-- Claim C6 as amended: after N steps with distinct identifiers that do not
collide with the seed's keys, the state holds exactly the seed's keys plus
the N step identifiers in processing order; each step's key maps to that
step's recorded output, and no seed entry is altered by any step's merge. -/
theorem claim6_state_growth (seed : Dict) (steps : List (String × Json))
    (hnd : (steps.map Prod.fst).Nodup)
    (hdisj : ∀ s ∈ steps.map Prod.fst, s ∉ seed.keys) :
    (runWorkflow seed steps).keys = seed.keys ++ steps.map Prod.fst
    ∧ (runWorkflow seed steps).length = seed.length + steps.length
    ∧ (∀ p ∈ steps,
        Dict.get (runWorkflow seed steps) p.1 = some (Json.obj [("output", p.2)]))
    ∧ (∀ k, k ∈ seed.keys →
        Dict.get (runWorkflow seed steps) k = Dict.get seed k) := by
  have hform := runWorkflow_append_form seed steps hnd hdisj
  refine ⟨?_, ?_, ?_, ?_⟩
  · rw [hform]
    simp [Dict.keys, List.map_append, List.map_map]
  · rw [hform]
    simp
  · intro p hp
    rw [hform]
    rw [Dict.get_append_right _ _ _
      (Dict.get_eq_none_of_not_mem _ _ (hdisj p.1 (List.mem_map_of_mem Prod.fst hp)))]
    exact get_wrapped_steps steps p hnd hp
  · intro k hk
    rw [hform]
    obtain ⟨v, hv⟩ := Option.isSome_iff_exists.mp ((Dict.mem_keys_iff_isSome seed k).mp hk)
    rw [Dict.get_append_left _ _ _ _ hv, hv]

/-- Witness for amended C6: the `main` seed followed by two fresh steps. -/
theorem claim6_witness :
    (runWorkflow initialSteps
      [("s1", Json.obj []), ("s2", Json.str "done")]).keys =
      ["initial_icp", "s1", "s2"] := by
  rw [(claim6_state_growth initialSteps
    [("s1", Json.obj []), ("s2", Json.str "done")] (by decide) (by decide)).1]
  rfl

/-- Counterexample to C8 as stated: a response whose object carries both an
`action` and a `final_answer` key is dispatched as a tool call, so the step
output is the action branch's error, not the `final_answer` value. -/
theorem claim8_counterexample :
    Json.hasKey (callLLMParse bothKeysContent) "final_answer" = true
    ∧ Json.getD (callLLMParse bothKeysContent) "final_answer" =
        Json.obj [("x", Json.num "1")]
    ∧ runAgent "agent_1" [] okNullImpl (.ok bothKeysContent) =
        .ok [("agent_1", Json.obj [("output", errObj "Tool 'nope' not found.")])]
    ∧ errObj "Tool 'nope' not found." ≠ Json.obj [("x", Json.num "1")] :=
  ⟨rfl, rfl, rfl, fun h => absurd (congrArg errMsgOf h) (by decide)⟩

/-- Claim C8 as amended: for every raw LLM text whose first-brace-to-last-brace
substring parses to an object holding a `final_answer` key and no `action`
key, the step output is the `final_answer` value verbatim, with no schema
enforcement. -/
theorem claim8_final_answer_verbatim (content : String) (fields : Dict) (fa : Json)
    (cfg : List ToolBinding) (impl : ToolImpl)
    (hparse : callLLMParse content = Json.obj fields)
    (hnoact : Dict.get fields "action" = none)
    (hfa : Dict.get fields "final_answer" = some fa) :
    runDispatch cfg impl (callLLMParse content) = .ok ⟨fa, false⟩
    ∧ ∀ agentId, runAgent agentId cfg impl (.ok content) =
        .ok [(agentId, Json.obj [("output", fa)])] := by
  have hd : runDispatch cfg impl (callLLMParse content) = .ok ⟨fa, false⟩ := by
    simp [hparse, runDispatch, Json.hasKey, Json.getD, hnoact, hfa]
  refine ⟨hd, ?_⟩
  intro agentId
  simp [runAgent, reactCallLLM, hd]

/-- Witness for amended C8, the spec's scenario: commentary plus
`final_answer: {x: 1}` yields step output `{x: 1}`. -/
theorem claim8_witness :
    runAgent "agent_1" [] okNullImpl (.ok sureContent) =
      .ok [("agent_1", Json.obj [("output", Json.obj [("x", Json.num "1")])])] :=
  (claim8_final_answer_verbatim sureContent
    [("thought", Json.str "ok"), ("final_answer", Json.obj [("x", Json.num "1")])]
    (Json.obj [("x", Json.num "1")]) [] okNullImpl
    rfl rfl rfl).2 "agent_1"
